import Mathlib

/-!
Verification of the spreadsheet-backed row-oriented data access layer
(`sheets_integration.py`) and the content-generation adapter
(`openai_integration.py`) of the Livecom repository.

The remote spreadsheet store is modelled as a list of worksheets, each a
grid of text cells (`List (List String)`).  Adapter operations are shallow
embeddings of the Python methods of `GoogleSheetsIntegration`: each remote
primitive call runs in a monad `Act` that threads the session state and may
raise a fault (modelling a Python exception from the underlying client
library); the `try/except` wrapper of each Python method is modelled by
`runCatch`, which converts a fault into the method's `(False/None, message)`
result.  Fault injection is modelled by a queue in the state: each primitive
call consumes at most one scheduled fault.  Mutating primitives are logged in
an effect trace so that theorems can speak about exactly which remote writes
an operation issues.

Text processing (URL identifier extraction with Python `str.split`, code
fence removal with Python `str.replace`, `str.strip`) is modelled on
`List Char`, with scanning functions that mirror Python's left-to-right
non-overlapping substring semantics.
-/

/-- Python dict lookup `d[k]` / membership `k in d`, for a record modelled as
an association list (a Python dict has unique keys; lookup returns the first
binding). -/
def dictLookup (k : String) : List (String × String) → Option String
  | [] => none
  | (k', v) :: rest => if k' = k then some v else dictLookup k rest

/-- A record restricted to the keys that occur in `headers` (used to state
that fields absent from the header are silently dropped). -/
def restrictRecord (record : List (String × String)) (headers : List String) :
    List (String × String) :=
  record.filter (fun p => decide (p.1 ∈ headers))

/-- A worksheet grid: rows of text cells, row 1 (index 0) is the header. -/
abbrev Grid := List (List String)

/-- `worksheet.row_values(n)`: the cells of 1-based row `n` (empty when the
row does not exist). -/
def rowValues (g : Grid) (n : Nat) : List String :=
  g.getD (n - 1) []

/-- `worksheet.cell(r, c).value`: the text of the cell at 1-based row `r`,
column `c` (empty string when the cell is absent). -/
def cellValue (g : Grid) (r c : Nat) : String :=
  (g.getD (r - 1) []).getD (c - 1) ""

/-- Pad a row with trailing empty strings up to width `w` (gspread's
`fill_gaps`, applied by `get_all_values`). -/
def padRow (r : List String) (w : Nat) : List String :=
  r ++ List.replicate (w - r.length) ""

/-- `worksheet.get_all_values()`: the whole grid, with every row padded with
empty strings to the width of the widest row (gspread pads the result to a
rectangle). -/
def fillGaps (g : Grid) : Grid :=
  let w := (g.map List.length).foldr Nat.max 0
  g.map (fun r => padRow r w)

/-- A remote write issued by an adapter operation: worksheet index together
with the row-replace / append / delete request sent to the remote store. -/
inductive Effect where
  | rowReplace : Nat → Nat → List String → Effect
  | appendRow : Nat → List String → Effect
  | deleteRow : Nat → Nat → Effect
deriving DecidableEq

/-- The in-memory table produced by `get_worksheet_data` (the
`pd.DataFrame(rows, columns=headers)` value): the header and, for each data
row, the positional field-name-to-value pairing. -/
structure Table where
  headers : List String
  records : List (List (String × String))
deriving DecidableEq

/-- Session state: the authenticated client flag (`st.session_state.gsheets_client`),
the worksheets of the open spreadsheet, the trace of remote writes issued so
far, and the queue of faults scheduled for upcoming primitive calls
(`some e` makes the next primitive call raise `e`; `none` lets it succeed). -/
structure St where
  client : Bool
  grids : List Grid
  effects : List Effect
  faults : List (Option String)
deriving DecidableEq

/-- The adapter computation monad: state plus Python-exception faults. -/
def Act (α : Type) : Type :=
  St → Except String α × St

instance : Monad Act where
  pure a := fun s => (Except.ok a, s)
  bind x f := fun s =>
    match x s with
    | (Except.ok a, s') => f a s'
    | (Except.error e, s') => (Except.error e, s')

/-- A call into the underlying client library: it first consumes a scheduled
fault (if one is queued) and otherwise runs the primitive's semantics. -/
def prim {α : Type} (run : St → Except String α × St) : Act α := fun s =>
  match s.faults with
  | some e :: rest => (Except.error e, { s with faults := rest })
  | none :: rest => run { s with faults := rest }
  | [] => run s

/-- The `try: body except Exception as e: return handler(e)` wrapper present
in every adapter method. -/
def runCatch {α : Type} (x : Act α) (handler : String → α) (s : St) : α × St :=
  match x s with
  | (Except.ok a, s') => (a, s')
  | (Except.error e, s') => (handler e, s')

/-- `self.is_authenticated()`: a local session-state read (no remote call). -/
def isAuthA : Act Bool := fun s => (Except.ok s.client, s)

/-- `json.loads` of the credential payload followed by
`ServiceAccountCredentials.from_json_keyfile_dict` and `gspread.authorize`:
on success the client handle is stored in the session. -/
def authPrimA (_payload : List Char) : Act Unit :=
  prim fun s => (Except.ok (), { s with client := true })

/-- `client.open_by_key(spreadsheet_id)`: returns the spreadsheet handle
(modelled as the key itself). -/
def openByKeyA (key : List Char) : Act (List Char) :=
  prim fun s => (Except.ok key, s)

/-- `spreadsheet.get_worksheet(worksheet_index)`: validates the 0-based index
and returns the worksheet handle (modelled as the index). -/
def getWorksheetA (wsIdx : Nat) : Act Nat :=
  prim fun s =>
    match s.grids.get? wsIdx with
    | some _ => (Except.ok wsIdx, s)
    | none => (Except.error ("Worksheet not found"), s)

/-- `worksheet.get_all_values()` on worksheet `ws`. -/
def getAllValuesA (ws : Nat) : Act Grid :=
  prim fun s => (Except.ok (fillGaps (s.grids.getD ws [])), s)

/-- `worksheet.row_values(n)` on worksheet `ws`. -/
def rowValuesA (ws n : Nat) : Act (List String) :=
  prim fun s => (Except.ok (rowValues (s.grids.getD ws []) n), s)

/-- `worksheet.cell(r, c).value` on worksheet `ws`. -/
def cellA (ws r c : Nat) : Act String :=
  prim fun s => (Except.ok (cellValue (s.grids.getD ws []) r c), s)

/-- `worksheet.update_row(r, row)`: replaces 1-based row `r` with `row`
(a single row-replace request, recorded in the effect trace). -/
def updateRowA (ws r : Nat) (row : List String) : Act Unit :=
  prim fun s =>
    (Except.ok (), { s with
      grids := s.grids.set ws ((s.grids.getD ws []).set (r - 1) row),
      effects := s.effects ++ [Effect.rowReplace ws r row] })

/-- `worksheet.append_row(row)`: appends `row` as the new last row. -/
def appendRowA (ws : Nat) (row : List String) : Act Unit :=
  prim fun s =>
    (Except.ok (), { s with
      grids := s.grids.set ws ((s.grids.getD ws []) ++ [row]),
      effects := s.effects ++ [Effect.appendRow ws row] })

/-- `worksheet.delete_row(r)`: deletes 1-based row `r`; the remote store
rejects a row number outside the grid. -/
def deleteRowA (ws r : Nat) : Act Unit :=
  prim fun s =>
    if 1 ≤ r ∧ r ≤ (s.grids.getD ws []).length then
      (Except.ok (), { s with
        grids := s.grids.set ws ((s.grids.getD ws []).eraseIdx (r - 1)),
        effects := s.effects ++ [Effect.deleteRow ws r] })
    else (Except.error ("Row index out of range"), s)

/-- The URL path marker `spreadsheets/d/` used by `get_spreadsheet`. -/
def marker : List Char := "spreadsheets/d/".toList

/-- Python `s.split("/")` (accumulator holds the current chunk reversed):
splits at every slash. -/
def splitSlashAux : List Char → List Char → List (List Char)
  | [], acc => [acc.reverse]
  | c :: rest, acc =>
    if c = '/' then acc.reverse :: splitSlashAux rest []
    else splitSlashAux rest (c :: acc)

/-- Python `s.split("spreadsheets/d/")`, fuelled for structural recursion
(the fuel is an upper bound on the scanned length; the wrapper passes the
list's length): splits at every non-overlapping occurrence of the marker,
scanning left to right (the accumulator holds the current chunk reversed). -/
def splitMarkerF : Nat → List Char → List Char → List (List Char)
  | _, [], acc => [acc.reverse]
  | 0, l, acc => [acc.reverse ++ l]
  | fuel + 1, c :: rest, acc =>
    if marker.isPrefixOf (c :: rest) then
      acc.reverse :: splitMarkerF fuel (rest.drop (marker.length - 1)) []
    else splitMarkerF fuel rest (c :: acc)

/-- Python `url.split("spreadsheets/d/")`. -/
def splitMarker (l : List Char) : List (List Char) :=
  splitMarkerF l.length l []

/-- The number of non-overlapping occurrences of the marker, scanning left to
right (the occurrences Python `str.split` separates on), fuelled like
`splitMarkerF`. -/
def countMarkerF : Nat → List Char → Nat
  | _, [] => 0
  | 0, _ => 0
  | fuel + 1, c :: rest =>
    if marker.isPrefixOf (c :: rest) then
      countMarkerF fuel (rest.drop (marker.length - 1)) + 1
    else countMarkerF fuel rest

/-- The number of non-overlapping occurrences of the marker in `l`. -/
def countMarker (l : List Char) : Nat :=
  countMarkerF l.length l

/-- The suffix following the first occurrence of the marker (`none` when the
marker does not occur; `isSome` models Python `"spreadsheets/d/" in url`). -/
def dropAfterMarker : List Char → Option (List Char)
  | [] => none
  | c :: rest =>
    if marker.isPrefixOf (c :: rest) then some (rest.drop (marker.length - 1))
    else dropAfterMarker rest

/-- The spreadsheet-identifier extraction of `get_spreadsheet`:
`url.split("spreadsheets/d/")[1].split("/")[0]` when the marker occurs in the
URL, otherwise the whole input. -/
def extract_spreadsheet_id (url : List Char) : List Char :=
  if (dropAfterMarker url).isSome then
    (splitSlashAux ((splitMarker url).getD 1 []) []).getD 0 []
  else url

/-- Formalisation of the claim's wording: the identifier is exactly the
substring after the first occurrence of `spreadsheets/d/` and before the next
`/` (the whole remainder when no `/` follows); an input without the marker is
used whole. -/
def claimExtractId (url : List Char) : List Char :=
  match dropAfterMarker url with
  | some suffix => suffix.takeWhile (fun c => c ≠ '/')
  | none => url

/-- The `try`-block body of `authenticate_with_key`. -/
def authBody (payload : List Char) : Act (Bool × String) := do
  authPrimA payload
  pure (true, "Authentication successful")

/-- `GoogleSheetsIntegration.authenticate_with_key`. -/
def authenticate_with_key (payload : List Char) (s : St) : (Bool × String) × St :=
  runCatch (authBody payload)
    (fun e => (false, "Authentication failed: " ++ e)) s

/-- `GoogleSheetsIntegration.get_spreadsheet`: checks authentication, extracts
the spreadsheet id from the URL, opens the spreadsheet by key. -/
def getSpreadsheetBody (url : List Char) : Act (Option (List Char) × String) := do
  let auth ← isAuthA
  if auth then do
    let h ← openByKeyA (extract_spreadsheet_id url)
    pure (some h, "Success")
  else
    pure (none, "Not authenticated")

/-- `GoogleSheetsIntegration.get_spreadsheet` (see `getSpreadsheetBody` for
the `try`-block body). -/
def get_spreadsheet (url : List Char) (s : St) : (Option (List Char) × String) × St :=
  runCatch (getSpreadsheetBody url)
    (fun e => (none, "Error accessing spreadsheet: " ++ e)) s

/-- `GoogleSheetsIntegration.get_worksheet_data`: full grid read; empty grid
reports `Worksheet is empty`; otherwise row 0 becomes the header and rows
1.. become records by positional alignment (`pd.DataFrame(rows, columns=headers)`). -/
def getWorksheetDataBody (wsIdx : Nat) : Act (Option Table × String) := do
  let ws ← getWorksheetA wsIdx
  let data ← getAllValuesA ws
  match data with
  | [] => pure (none, "Worksheet is empty")
  | headers :: rows =>
      pure (some ⟨headers, rows.map (fun r => headers.zip r)⟩, "Success")

/-- `GoogleSheetsIntegration.get_worksheet_data` (see `getWorksheetDataBody`
for the `try`-block body). -/
def get_worksheet_data (wsIdx : Nat) (s : St) : (Option Table × String) × St :=
  runCatch (getWorksheetDataBody wsIdx)
    (fun e => (none, "Error getting worksheet data: " ++ e)) s

/-- The row-construction loop of `update_row`: for each header field in
order, the record's value when present, otherwise the existing cell read from
the remote store at `(row_index + 1, headers.index(header) + 1)`. -/
def buildUpdateRowA (ws rowIdx : Nat) (headers : List String)
    (record : List (String × String)) : List String → Act (List String)
  | [] => pure []
  | h :: t => do
    let v ← match dictLookup h record with
      | some v => pure v
      | none => cellA ws (rowIdx + 1) (headers.indexOf h + 1)
    let rest ← buildUpdateRowA ws rowIdx headers record t
    pure (v :: rest)

/-- `GoogleSheetsIntegration.update_row(spreadsheet, worksheet_index,
row_index, data_dict)`: fetches the header, reconstructs the full row, and
replaces 1-based remote row `row_index + 1`. -/
def updateRowBody (wsIdx rowIdx : Nat)
    (record : List (String × String)) : Act (Bool × String) := do
  let ws ← getWorksheetA wsIdx
  let headers ← rowValuesA ws 1
  let rowData ← buildUpdateRowA ws rowIdx headers record headers
  updateRowA ws (rowIdx + 1) rowData
  pure (true, "Row updated successfully")

/-- `GoogleSheetsIntegration.update_row(spreadsheet, worksheet_index,
row_index, data_dict)` (see `updateRowBody` for the `try`-block body). -/
def update_row (wsIdx rowIdx : Nat) (record : List (String × String))
    (s : St) : (Bool × String) × St :=
  runCatch (updateRowBody wsIdx rowIdx record)
    (fun e => (false, "Error updating row: " ++ e)) s

/-- The spec's `update_record(record_offset, record)`: every caller in the
repository passes `row_index = record_offset + 1` (`product_index + 1,
# +1 to account for header row`), so the spec-level operation on a 0-based
data-row offset is `update_row` at `offset + 1`. -/
def update_record (wsIdx offset : Nat) (record : List (String × String))
    (s : St) : (Bool × String) × St :=
  update_row wsIdx (offset + 1) record s

/-- The row-construction loop of `add_row`: for each header field in order,
the record's value when present, otherwise the empty string. -/
def buildAddRow (headers : List String) (record : List (String × String)) :
    List String :=
  headers.map (fun h => (dictLookup h record).getD "")

/-- `GoogleSheetsIntegration.add_row`: fetches the header, builds the row,
appends it as the new last row. -/
def addRowBody (wsIdx : Nat)
    (record : List (String × String)) : Act (Bool × String) := do
  let ws ← getWorksheetA wsIdx
  let headers ← rowValuesA ws 1
  appendRowA ws (buildAddRow headers record)
  pure (true, "Row added successfully")

/-- `GoogleSheetsIntegration.add_row` (see `addRowBody` for the `try`-block
body). -/
def add_row (wsIdx : Nat) (record : List (String × String)) (s : St) :
    (Bool × String) × St :=
  runCatch (addRowBody wsIdx record)
    (fun e => (false, "Error adding row: " ++ e)) s

/-- `GoogleSheetsIntegration.delete_row(spreadsheet, worksheet_index,
row_index)`: deletes 1-based remote row `row_index + 1`. -/
def deleteRowBody (wsIdx rowIdx : Nat) : Act (Bool × String) := do
  let ws ← getWorksheetA wsIdx
  deleteRowA ws (rowIdx + 1)
  pure (true, "Row deleted successfully")

/-- `GoogleSheetsIntegration.delete_row(spreadsheet, worksheet_index,
row_index)` (see `deleteRowBody` for the `try`-block body). -/
def delete_row (wsIdx rowIdx : Nat) (s : St) : (Bool × String) × St :=
  runCatch (deleteRowBody wsIdx rowIdx)
    (fun e => (false, "Error deleting row: " ++ e)) s

/-- The spec's `delete_record(record_offset)`: with the repository's calling
convention `row_index = record_offset + 1`, deletion of the data row at
0-based `record_offset` is `delete_row` at `offset + 1` (remote row
`offset + 2`). -/
def delete_record (wsIdx offset : Nat) (s : St) : (Bool × String) × St :=
  delete_row wsIdx (offset + 1) s

/-- Formalisation of the claim's wording for `update_record`: for each header
field in header order (`i` the 0-based column), the record's value when the
field is present, otherwise the existing cell at 1-based
`(record_offset + 2, i + 1)`. -/
def claimUpdateRow (g : Grid) (offset : Nat)
    (record : List (String × String)) : List String :=
  (rowValues g 1).enum.map fun ih =>
    match dictLookup ih.2 record with
    | some v => v
    | none => cellValue g (offset + 2) (ih.1 + 1)

/-- Python `s.replace(sep, "")`, fuelled for structural recursion (the
wrapper passes the list's length): removes every non-overlapping occurrence
of `sep`, scanning left to right (the scan resumes after the removed
occurrence; text made adjacent by a removal is not re-scanned). -/
def removeAllF (sep : List Char) : Nat → List Char → List Char
  | _, [] => []
  | 0, l => l
  | fuel + 1, c :: rest =>
    if sep.isPrefixOf (c :: rest) then removeAllF sep fuel (rest.drop (sep.length - 1))
    else c :: removeAllF sep fuel rest

/-- Python `s.replace(sep, "")`. -/
def removeAll (sep : List Char) (l : List Char) : List Char :=
  removeAllF sep l.length l

/-- Python `s.strip()`: removes leading and trailing whitespace. -/
def trimWS (l : List Char) : List Char :=
  ((l.dropWhile Char.isWhitespace).reverse.dropWhile Char.isWhitespace).reverse

/-- The response clean-up of `generate_product`:
`result = response_text.strip()` followed by
`result.replace("```json", "").replace("```", "").strip()` — every
occurrence of the two fence tokens is removed, wherever it appears. -/
def stripFences (resp : List Char) : List Char :=
  trimWS (removeAll ("```".toList) (removeAll ("```json".toList) (trimWS resp)))

/-- Formalisation of the claim's wording: only the surrounding code-fence
markers are stripped — a leading ```` ```json ```` or ```` ``` ```` fence and
a trailing ```` ``` ```` fence of the whitespace-trimmed response; interior
text is left untouched. -/
def claimStripFences (resp : List Char) : List Char :=
  let t := trimWS resp
  let t1 :=
    if ("```json".toList).isPrefixOf t then t.drop 7
    else if ("```".toList).isPrefixOf t then t.drop 3
    else t
  let t2 := if ("```".toList).isSuffixOf t1 then t1.take (t1.length - 3) else t1
  trimWS t2

/-- `OpenAIIntegration.is_configured`: `bool(st.session_state.openai_api_key)`
— false exactly when the stored key is the empty string. -/
def is_configured (apiKey : String) : Bool :=
  apiKey ≠ ""

/-- `OpenAIIntegration.set_api_key`: stores the key and reports success. -/
def set_api_key (apiKey : String) : String × (Bool × String) :=
  (apiKey, (true, "API key set successfully"))

/-- `OpenAIIntegration.generate_product`.  The chat-completion round trip is
modelled by `svc` — the response text, or the fault the service call raised
(the prompt-building arguments only feed into the request, so they are
omitted).  `parseJson` models `json.loads`: the parsed value, or the raised
`ValueError`'s message.  Both faults are caught by the method's `try/except`
and converted to `(None, message)`. -/
def generate_product {J : Type} (apiKey : String)
    (svc : Except String (List Char)) (parseJson : List Char → Except String J) :
    Option J × String :=
  if is_configured apiKey then
    match svc with
    | Except.error e => (none, "Error generating product: " ++ e)
    | Except.ok content =>
      match parseJson (stripFences content) with
      | Except.ok productData => (some productData, "Product generated successfully")
      | Except.error e => (none, "Error generating product: " ++ e)
  else (none, "OpenAI API key not configured")

/-- `OpenAIIntegration.improve_product_description`: same configuration check
and `try/except`; the successful response is returned as stripped text, with
no structured parsing. -/
def improve_product_description (apiKey : String)
    (svc : Except String (List Char)) : Option (List Char) × String :=
  if is_configured apiKey then
    match svc with
    | Except.error e => (none, "Error improving description: " ++ e)
    | Except.ok content => (some (trimWS content), "Description improved successfully")
  else (none, "OpenAI API key not configured")

/-- A concrete stand-in for `json.loads` restricted to JSON string literals
without escapes: `"..."` parses to the quoted text; anything else raises
`Expecting value`.  It agrees with `json.loads` on every input used in the
theorems below. -/
def parserCx (l : List Char) : Except String (List Char) :=
  match l with
  | '"' :: rest =>
    if rest ≠ [] ∧ rest.getLast? = some '"' ∧ ¬ ('"' ∈ rest.dropLast) then
      Except.ok rest.dropLast
    else Except.error ("Expecting value")
  | _ => Except.error ("Expecting value")

/-- The pure value of `update_row`'s reconstructed row on a fault-free store
with grid `g`: for each header field in header order, the record's value when
present, otherwise the cell read the code issues — at 1-based row
`row_index + 1` and column `headers.index(header) + 1` (the column of the
field's first occurrence in the header). -/
def codeUpdateRow (g : Grid) (rowIdx : Nat)
    (record : List (String × String)) : List String :=
  (rowValues g 1).map fun h =>
    match dictLookup h record with
    | some v => v
    | none => cellValue g (rowIdx + 1) ((rowValues g 1).indexOf h + 1)

deriving instance DecidableEq for Except

theorem Act.bind_apply {α β : Type} (x : Act α) (f : α → Act β) (s : St) :
    (x >>= f) s = match x s with
      | (Except.ok a, s') => f a s'
      | (Except.error e, s') => (Except.error e, s') := rfl

theorem Act.pure_apply {α : Type} (a : α) (s : St) :
    (pure a : Act α) s = (Except.ok a, s) := rfl

theorem Act.bind_ok {α β : Type} {x : Act α} {f : α → Act β} {s s₂ : St} {b : β}
    (h : (x >>= f) s = (Except.ok b, s₂)) :
    ∃ a s₁, x s = (Except.ok a, s₁) ∧ f a s₁ = (Except.ok b, s₂) := by
  rw [Act.bind_apply] at h
  rcases hx : x s with ⟨r, s₁⟩
  rw [hx] at h
  cases r with
  | ok a => exact ⟨a, s₁, rfl, h⟩
  | error e => simp at h

theorem runCatch_eq {α : Type} (x : Act α) (handler : String → α) (s : St) :
    runCatch x handler s = match x s with
      | (Except.ok a, s') => (a, s')
      | (Except.error e, s') => (handler e, s') := rfl

theorem prim_noFault {α : Type} (run : St → Except String α × St) {s : St}
    (h : s.faults = []) : prim run s = run s := by
  unfold prim
  rw [h]

theorem prim_read_state {α : Type} {run : St → Except String α × St}
    (hrun : ∀ t, (run t).2 = t) {s s' : St} {r : Except String α}
    (h : prim run s = (r, s')) :
    s'.grids = s.grids ∧ s'.effects = s.effects ∧ s'.client = s.client := by
  unfold prim at h
  rcases hf : s.faults with _ | ⟨_ | e, rest⟩ <;> rw [hf] at h
  · have h2 := congrArg Prod.snd h
    have h3 := hrun s
    simp only at h2
    rw [h2] at h3
    rw [h3]
    exact ⟨rfl, rfl, rfl⟩
  · have h2 := congrArg Prod.snd h
    have h3 := hrun { s with faults := rest }
    simp only at h2
    rw [h2] at h3
    rw [h3]
    exact ⟨rfl, rfl, rfl⟩
  · have h2 := congrArg Prod.snd h
    simp only at h2
    rw [← h2]
    exact ⟨rfl, rfl, rfl⟩

/-- C10: with the content-generation API credential unset or set to the empty
string (an unset key defaults to `os.environ.get(..., '')`, and
`set_api_key("")` stores the empty string), `is_configured()` returns false
and both `generate_product` and `improve_product_description` return no
result with exactly the message `OpenAI API key not configured`; the
quantification over every service outcome `svc` shows that no service call
is consulted. -/
theorem C10_unconfigured_key :
    is_configured "" = false ∧
    (set_api_key "").1 = "" ∧
    is_configured (set_api_key "").1 = false ∧
    (∀ (J : Type) (svc : Except String (List Char))
        (parseJson : List Char → Except String J),
      generate_product "" svc parseJson = (none, "OpenAI API key not configured")) ∧
    (∀ svc : Except String (List Char),
      improve_product_description "" svc = (none, "OpenAI API key not configured")) := by
  refine ⟨rfl, rfl, rfl, ?_, ?_⟩ <;> intros <;> rfl

/-- C8 counterexample: the code does not strip only the surrounding code-fence
markers — `result.replace("```json", "").replace("```", "")` removes the
fence tokens wherever they occur.  For the service response `"a```b"` (a
valid JSON string literal with interior backticks, no surrounding fence),
the claim's reading parses the response unchanged, yielding the text
`a```b`, while `generate_product` removes the interior backticks and returns
the product parsed from `"ab"`. -/
theorem C8_surrounding_strip_counterexample :
    claimStripFences ("\"a```b\"".toList) = ("\"a```b\"".toList) ∧
    parserCx ("\"a```b\"".toList) = Except.ok ("a```b".toList) ∧
    generate_product ("k") (Except.ok ("\"a```b\"".toList)) parserCx =
      (some ("ab".toList), "Product generated successfully") ∧
    ("ab".toList : List Char) ≠ ("a```b".toList) := by decide

/-- C8 (amended): `generate_product` removes every occurrence of the
code-fence tokens from the (whitespace-trimmed) response and parses the
result as JSON; for every configured key and every service outcome it either
returns the parsed product with the success message or returns no result
with an `Error generating product:` message — it never raises — and every
successful result is exactly the parse of the fence-stripped response
text. -/
theorem C8_generate_fence_strip_amended {J : Type} (apiKey : String)
    (svc : Except String (List Char)) (parseJson : List Char → Except String J)
    (hc : is_configured apiKey = true) :
    ((∃ p, generate_product apiKey svc parseJson =
        (some p, "Product generated successfully")) ∨
      (∃ e, generate_product apiKey svc parseJson =
        (none, "Error generating product: " ++ e))) ∧
    (∀ p m, generate_product apiKey svc parseJson = (some p, m) →
      m = "Product generated successfully" ∧
      ∃ content, svc = Except.ok content ∧
        parseJson (stripFences content) = Except.ok p) := by
  cases svc with
  | error e =>
    constructor
    · exact Or.inr ⟨e, by simp [generate_product, hc]⟩
    · intro p m h
      simp [generate_product, hc] at h
  | ok content =>
    cases hp : parseJson (stripFences content) with
    | error e =>
      constructor
      · exact Or.inr ⟨e, by simp [generate_product, hc, hp]⟩
      · intro p m h
        simp [generate_product, hc, hp] at h
    | ok p =>
      constructor
      · exact Or.inl ⟨p, by simp [generate_product, hc, hp]⟩
      · intro p' m h
        simp [generate_product, hc, hp] at h
        exact ⟨h.2.symm, content, rfl, by rw [hp, h.1]⟩

/-- Witness for the amended C8 theorem: a concrete fenced response
`\`\`\`json "hi" \`\`\`` with the configured key `k`. -/
theorem C8_generate_fence_strip_amended_witness :
    (∃ p, generate_product ("k") (Except.ok ("```json\n\"hi\"\n```".toList)) parserCx =
        (some p, "Product generated successfully")) ∨
    (∃ e, generate_product ("k") (Except.ok ("```json\n\"hi\"\n```".toList)) parserCx =
        (none, "Error generating product: " ++ e)) :=
  (C8_generate_fence_strip_amended ("k")
    (Except.ok ("```json\n\"hi\"\n```".toList)) parserCx (by decide)).1

theorem getD_of_get? {α : Type} {l : List α} {i : Nat} {g : α} (d : α)
    (h : l.get? i = some g) : l.getD i d = g := by
  simp [List.getD, ← List.get?_eq_getElem?, h]

theorem getWorksheetA_noFault {wsIdx : Nat} {s : St} {g : Grid}
    (hf : s.faults = []) (hg : s.grids.get? wsIdx = some g) :
    getWorksheetA wsIdx s = (Except.ok wsIdx, s) := by
  unfold getWorksheetA
  rw [prim_noFault _ hf, hg]

theorem rowValuesA_noFault {ws n : Nat} {s : St} (hf : s.faults = []) :
    rowValuesA ws n s = (Except.ok (rowValues (s.grids.getD ws []) n), s) := by
  unfold rowValuesA
  rw [prim_noFault _ hf]

theorem cellA_noFault {ws r c : Nat} {s : St} (hf : s.faults = []) :
    cellA ws r c s = (Except.ok (cellValue (s.grids.getD ws []) r c), s) := by
  unfold cellA
  rw [prim_noFault _ hf]

theorem getAllValuesA_noFault {ws : Nat} {s : St} (hf : s.faults = []) :
    getAllValuesA ws s = (Except.ok (fillGaps (s.grids.getD ws [])), s) := by
  unfold getAllValuesA
  rw [prim_noFault _ hf]

theorem appendRowA_noFault {ws : Nat} {row : List String} {s : St}
    (hf : s.faults = []) :
    appendRowA ws row s =
      (Except.ok (), { s with
        grids := s.grids.set ws ((s.grids.getD ws []) ++ [row]),
        effects := s.effects ++ [Effect.appendRow ws row] }) := by
  unfold appendRowA
  rw [prim_noFault _ hf]

theorem updateRowA_noFault {ws r : Nat} {row : List String} {s : St}
    (hf : s.faults = []) :
    updateRowA ws r row s =
      (Except.ok (), { s with
        grids := s.grids.set ws ((s.grids.getD ws []).set (r - 1) row),
        effects := s.effects ++ [Effect.rowReplace ws r row] }) := by
  unfold updateRowA
  rw [prim_noFault _ hf]

theorem deleteRowA_noFault {ws r : Nat} {s : St} (hf : s.faults = [])
    (hr : 1 ≤ r ∧ r ≤ (s.grids.getD ws []).length) :
    deleteRowA ws r s =
      (Except.ok (), { s with
        grids := s.grids.set ws ((s.grids.getD ws []).eraseIdx (r - 1)),
        effects := s.effects ++ [Effect.deleteRow ws r] }) := by
  unfold deleteRowA
  rw [prim_noFault _ hf, if_pos hr]

theorem add_row_noFault {wsIdx : Nat} {record : List (String × String)}
    {s : St} {g : Grid} (hf : s.faults = []) (hg : s.grids.get? wsIdx = some g) :
    add_row wsIdx record s =
      ((true, "Row added successfully"),
        { s with
          grids := s.grids.set wsIdx (g ++ [buildAddRow (rowValues g 1) record]),
          effects := s.effects ++
            [Effect.appendRow wsIdx (buildAddRow (rowValues g 1) record)] }) := by
  have hgD : s.grids.getD wsIdx [] = g := getD_of_get? [] hg
  simp only [add_row, addRowBody, runCatch_eq, Act.bind_apply, Act.pure_apply,
    getWorksheetA_noFault hf hg, rowValuesA_noFault hf, appendRowA_noFault hf, hgD]

theorem dictLookup_restrict {k : String} {headers : List String}
    (record : List (String × String)) (hk : k ∈ headers) :
    dictLookup k (restrictRecord record headers) = dictLookup k record := by
  induction record with
  | nil => rfl
  | cons p rest ih =>
    rcases p with ⟨k', v⟩
    unfold restrictRecord at ih ⊢
    rw [List.filter_cons]
    by_cases hkk : k' = k
    · subst hkk
      simp [hk, dictLookup]
    · by_cases hmem : k' ∈ headers
      · simp [hmem, dictLookup, hkk, ih]
      · simp [hmem, dictLookup, hkk, ih]

theorem buildAddRow_restrict (headers : List String)
    (record : List (String × String)) :
    buildAddRow headers (restrictRecord record headers) = buildAddRow headers record := by
  unfold buildAddRow
  apply List.map_congr_left
  intro h hmem
  rw [dictLookup_restrict record hmem]

/-- C4: `insert_record` (the adapter's `add_row`) builds the appended row by
iterating over the header fields in header order — emitting the record's
value when the field is supplied and the empty string when it is omitted —
and appends that row as the new last row (a single append effect); record
fields absent from the header are silently dropped: restricting the record
to the header field names gives the identical operation.  The claim's
concrete example is the witness below. -/
theorem C4_insert_record (wsIdx : Nat) (record : List (String × String))
    (s : St) (g : Grid) (hf : s.faults = []) (hg : s.grids.get? wsIdx = some g) :
    add_row wsIdx record s =
      ((true, "Row added successfully"),
        { s with
          grids := s.grids.set wsIdx
            (g ++ [(rowValues g 1).map (fun h => (dictLookup h record).getD "")]),
          effects := s.effects ++
            [Effect.appendRow wsIdx
              ((rowValues g 1).map (fun h => (dictLookup h record).getD ""))] }) ∧
    add_row wsIdx (restrictRecord record (rowValues g 1)) s = add_row wsIdx record s := by
  constructor
  · exact add_row_noFault hf hg
  · rw [add_row_noFault hf hg, add_row_noFault hf hg, buildAddRow_restrict]

/-- Witness for C4 at the claim's example: inserting
`Name ↦ Widget` into a sheet with headers `Name, Status` appends exactly the
row `Widget, ""` as the new last row. -/
theorem C4_insert_record_witness :
    add_row 0 [("Name", "Widget")] ⟨true, [[["Name", "Status"]]], [], []⟩ =
      ((true, "Row added successfully"),
        ⟨true, [[["Name", "Status"], ["Widget", ""]]],
          [Effect.appendRow 0 ["Widget", ""]], []⟩) := by
  rw [(C4_insert_record 0 [("Name", "Widget")] ⟨true, [[["Name", "Status"]]], [], []⟩
    [["Name", "Status"]] rfl rfl).1]
  decide

theorem buildUpdateRowA_noFault {ws rowIdx : Nat} {headers : List String}
    {record : List (String × String)} {s : St} (hf : s.faults = [])
    (hs : List String) :
    buildUpdateRowA ws rowIdx headers record hs s =
      (Except.ok (hs.map (fun h =>
        match dictLookup h record with
        | some v => v
        | none => cellValue (s.grids.getD ws []) (rowIdx + 1) (headers.indexOf h + 1))), s) := by
  induction hs with
  | nil => rfl
  | cons h t ih =>
    cases hd : dictLookup h record with
    | some v =>
      simp only [buildUpdateRowA, Act.bind_apply, Act.pure_apply, hd,
        ih, List.map_cons]
    | none =>
      simp only [buildUpdateRowA, Act.bind_apply, Act.pure_apply, hd,
        cellA_noFault hf, ih, List.map_cons]

theorem update_row_noFault {wsIdx rowIdx : Nat} {record : List (String × String)}
    {s : St} {g : Grid} (hf : s.faults = []) (hg : s.grids.get? wsIdx = some g) :
    update_row wsIdx rowIdx record s =
      ((true, "Row updated successfully"),
        { s with
          grids := s.grids.set wsIdx (g.set rowIdx (codeUpdateRow g rowIdx record)),
          effects := s.effects ++
            [Effect.rowReplace wsIdx (rowIdx + 1) (codeUpdateRow g rowIdx record)] }) := by
  have hgD : s.grids.getD wsIdx [] = g := getD_of_get? [] hg
  simp only [update_row, updateRowBody, runCatch_eq, Act.bind_apply, Act.pure_apply,
    getWorksheetA_noFault hf hg, rowValuesA_noFault hf,
    buildUpdateRowA_noFault hf, updateRowA_noFault hf, hgD,
    Nat.add_sub_cancel, codeUpdateRow]

theorem codeUpdateRow_eq_claim {g : Grid} {offset : Nat}
    {record : List (String × String)} (hnd : (rowValues g 1).Nodup) :
    codeUpdateRow g (offset + 1) record = claimUpdateRow g offset record := by
  unfold codeUpdateRow claimUpdateRow
  apply List.ext_getElem
  · simp [List.enum_length]
  · intro i h1 h2
    have hi : i < (rowValues g 1).length := by simpa using h1
    rw [List.getElem_map, List.getElem_map, List.getElem_enum]
    cases hd : dictLookup ((rowValues g 1)[i]) record with
    | some v => simp [hd]
    | none => simp [hd, List.indexOf_getElem hnd i hi]

/-- C1: for every worksheet (with the data model's unique header names),
0-based `record_offset` and record mapping, `update_record` reconstructs the
row by taking, for each header field in header order, the record's value
when present and otherwise the existing cell read from the remote store at
1-based `(record_offset + 2, field_column)`, and writes the reconstructed
row back as a single row-replace at remote row `record_offset + 2`. -/
theorem C1_update_record (wsIdx offset : Nat) (record : List (String × String))
    (s : St) (g : Grid) (hf : s.faults = []) (hg : s.grids.get? wsIdx = some g)
    (hnd : (rowValues g 1).Nodup) :
    update_record wsIdx offset record s =
      ((true, "Row updated successfully"),
        { s with
          grids := s.grids.set wsIdx (g.set (offset + 1) (claimUpdateRow g offset record)),
          effects := s.effects ++
            [Effect.rowReplace wsIdx (offset + 2) (claimUpdateRow g offset record)] }) := by
  unfold update_record
  rw [update_row_noFault hf hg, codeUpdateRow_eq_claim hnd]

/-- Witness for C1: updating the record at offset 0 of a two-column sheet
with only the `Status` field set replaces remote row 2 with the `Name` cell
preserved from the store and the new `Status` value. -/
theorem C1_update_record_witness :
    update_record 0 0 [("Status", "Done")]
        ⟨true, [[["Name", "Status"], ["a", "b"], ["c", "d"]]], [], []⟩ =
      ((true, "Row updated successfully"),
        ⟨true, [[["Name", "Status"], ["a", "Done"], ["c", "d"]]],
          [Effect.rowReplace 0 2 ["a", "Done"]], []⟩) := by
  rw [C1_update_record 0 0 [("Status", "Done")]
    ⟨true, [[["Name", "Status"], ["a", "b"], ["c", "d"]]], [], []⟩
    [["Name", "Status"], ["a", "b"], ["c", "d"]] rfl rfl (by decide)]
  decide

theorem eraseIdx_get?_lt {α : Type} : ∀ (l : List α) (i j : Nat), j < i →
    (l.eraseIdx i).get? j = l.get? j
  | [], _, _, _ => rfl
  | _ :: _, 0, j, h => absurd h (Nat.not_lt_zero j)
  | _ :: _, _ + 1, 0, _ => rfl
  | _ :: t, i + 1, j + 1, h => by
    simp only [List.eraseIdx, List.get?]
    exact eraseIdx_get?_lt t i j (Nat.lt_of_succ_lt_succ h)

theorem eraseIdx_get?_ge {α : Type} : ∀ (l : List α) (i j : Nat), i ≤ j →
    (l.eraseIdx i).get? j = l.get? (j + 1)
  | [], _, _, _ => rfl
  | _ :: _, 0, _, _ => rfl
  | _ :: _, _ + 1, 0, h => absurd h (by omega)
  | _ :: t, i + 1, j + 1, h => by
    simp only [List.eraseIdx, List.get?]
    exact eraseIdx_get?_ge t i j (Nat.le_of_succ_le_succ h)

theorem delete_row_noFault {wsIdx rowIdx : Nat} {s : St} {g : Grid}
    (hf : s.faults = []) (hg : s.grids.get? wsIdx = some g)
    (hr : rowIdx + 1 ≤ g.length) :
    delete_row wsIdx rowIdx s =
      ((true, "Row deleted successfully"),
        { s with
          grids := s.grids.set wsIdx (g.eraseIdx rowIdx),
          effects := s.effects ++ [Effect.deleteRow wsIdx (rowIdx + 1)] }) := by
  have hgD : s.grids.getD wsIdx [] = g := getD_of_get? [] hg
  have hdel := @deleteRowA_noFault wsIdx (rowIdx + 1) s hf
    ⟨by omega, by rw [hgD]; omega⟩
  simp only [delete_row, deleteRowBody, runCatch_eq, Act.bind_apply, Act.pure_apply,
    getWorksheetA_noFault hf hg, hdel, hgD, Nat.add_sub_cancel]

/-- C2: `delete_record` at 0-based `record_offset` issues exactly one remote
delete, of the 1-based row `record_offset + 2` (skipping the header row);
afterwards the header is unchanged, the data row at `record_offset` is gone,
records before the offset keep their positions, and every record after the
offset shifts up by one position. -/
theorem C2_delete_record (wsIdx offset : Nat) (s : St) (hdr : List String)
    (rows : List (List String)) (hf : s.faults = [])
    (hg : s.grids.get? wsIdx = some (hdr :: rows)) (hlt : offset < rows.length) :
    delete_record wsIdx offset s =
      ((true, "Row deleted successfully"),
        { s with
          grids := s.grids.set wsIdx (hdr :: rows.eraseIdx offset),
          effects := s.effects ++ [Effect.deleteRow wsIdx (offset + 2)] }) ∧
    (rows.eraseIdx offset).length = rows.length - 1 ∧
    (∀ j, j < offset → (rows.eraseIdx offset).get? j = rows.get? j) ∧
    (∀ j, offset ≤ j → (rows.eraseIdx offset).get? j = rows.get? (j + 1)) := by
  refine ⟨?_, ?_, fun j hj => eraseIdx_get?_lt rows offset j hj,
    fun j hj => eraseIdx_get?_ge rows offset j hj⟩
  · unfold delete_record
    rw [delete_row_noFault hf hg (by simp [List.length_cons]; omega)]
    rfl
  · have h1 := List.length_eraseIdx_add_one hlt
    omega

/-- Witness for C2: deleting the record at offset 0 of a sheet with two data
rows issues a delete of remote row 2 and shifts the second record up. -/
theorem C2_delete_record_witness :
    delete_record 0 0 ⟨true, [[["h"], ["r1"], ["r2"]]], [], []⟩ =
      ((true, "Row deleted successfully"),
        ⟨true, [[["h"], ["r2"]]], [Effect.deleteRow 0 2], []⟩) := by
  rw [(C2_delete_record 0 0 ⟨true, [[["h"], ["r1"], ["r2"]]], [], []⟩ ["h"]
    [["r1"], ["r2"]] rfl rfl (by decide)).1]
  decide

theorem foldr_max_le {l : List Nat} {a : Nat} (h : ∀ x ∈ l, x ≤ a) :
    List.foldr Nat.max 0 l ≤ a := by
  induction l with
  | nil => exact Nat.zero_le a
  | cons x t ih =>
    have hx := h x (List.mem_cons_self x t)
    have ht := ih (fun y hy => h y (List.mem_cons_of_mem x hy))
    exact Nat.max_le.mpr ⟨hx, ht⟩

theorem fillGaps_of_header {hdr : List String} {rows : List (List String)}
    (hle : ∀ r ∈ rows, r.length ≤ hdr.length) :
    fillGaps (hdr :: rows) = hdr :: rows.map (fun r => padRow r hdr.length) := by
  have hmax : ((hdr :: rows).map List.length).foldr Nat.max 0 = hdr.length := by
    simp only [List.map_cons, List.foldr]
    refine Nat.max_eq_left (foldr_max_le ?_)
    intro x hx
    rw [List.mem_map] at hx
    obtain ⟨r, hr, rfl⟩ := hx
    exact hle r hr
  show (hdr :: rows).map
      (fun r => padRow r (((hdr :: rows).map List.length).foldr Nat.max 0)) = _
  rw [hmax, List.map_cons]
  congr 1
  simp [padRow]

theorem get_worksheet_data_noFault {wsIdx : Nat} {s : St} {g : Grid}
    (hf : s.faults = []) (hg : s.grids.get? wsIdx = some g) :
    get_worksheet_data wsIdx s =
      ((match fillGaps g with
        | [] => (none, "Worksheet is empty")
        | headers :: rows =>
            (some ⟨headers, rows.map (fun r => headers.zip r)⟩, "Success")), s) := by
  have hgD : s.grids.getD wsIdx [] = g := getD_of_get? [] hg
  simp only [get_worksheet_data, getWorksheetDataBody, runCatch_eq, Act.bind_apply, Act.pure_apply,
    getWorksheetA_noFault hf hg, getAllValuesA_noFault hf, hgD]
  cases fillGaps g with
  | nil => rfl
  | cons h t => rfl

/-- C3: for every grid whose header row is non-empty (and which satisfies the
data model's invariant that no data row is longer than the header),
`read_worksheet` returns a Table whose record count equals the number of data
rows, where row 0 supplies the field names, each record is the positional
alignment of the header with its row, rows shorter than the header are
backfilled with empty strings, and every record's field list is exactly the
header. -/
theorem C3_read_worksheet (wsIdx : Nat) (s : St) (hdr : List String)
    (rows : List (List String)) (hf : s.faults = [])
    (hg : s.grids.get? wsIdx = some (hdr :: rows)) (hne : hdr ≠ [])
    (hle : ∀ r ∈ rows, r.length ≤ hdr.length) :
    get_worksheet_data wsIdx s =
      ((some ⟨hdr, rows.map (fun r => hdr.zip (padRow r hdr.length))⟩, "Success"), s) ∧
    (rows.map (fun r => hdr.zip (padRow r hdr.length))).length = rows.length ∧
    (∀ rec ∈ rows.map (fun r => hdr.zip (padRow r hdr.length)),
      rec.map Prod.fst = hdr) := by
  refine ⟨?_, by simp, ?_⟩
  · rw [get_worksheet_data_noFault hf hg, fillGaps_of_header hle]
    simp [List.map_map, Function.comp]
  · intro rec hrec
    rw [List.mem_map] at hrec
    obtain ⟨r, hr, rfl⟩ := hrec
    apply List.map_fst_zip
    have := hle r hr
    simp only [padRow, List.length_append, List.length_replicate]
    omega

/-- Witness for C3: a sheet with headers `A, B` and one short data row `x`
reads back as one record pairing `A ↦ x` and backfilling `B ↦ ""`. -/
theorem C3_read_worksheet_witness :
    get_worksheet_data 0 ⟨true, [[["A", "B"], ["x"]]], [], []⟩ =
      ((some ⟨["A", "B"], [[("A", "x"), ("B", "")]]⟩, "Success"),
        ⟨true, [[["A", "B"], ["x"]]], [], []⟩) := by
  rw [(C3_read_worksheet 0 ⟨true, [[["A", "B"], ["x"]]], [], []⟩ ["A", "B"]
    [["x"]] rfl rfl (by decide) (by decide)).1]
  decide

/-- C6: a worksheet whose full grid read yields zero rows makes
`read_worksheet` return no table together with exactly the message
`Worksheet is empty`, and `open_spreadsheet` with no active authenticated
client returns no handle together with exactly the message
`Not authenticated` (the check precedes every remote call, so this holds for
every fault schedule). -/
theorem C6_empty_worksheet_and_not_authenticated :
    (∀ (wsIdx : Nat) (s : St), s.faults = [] → s.grids.get? wsIdx = some [] →
      get_worksheet_data wsIdx s = ((none, "Worksheet is empty"), s)) ∧
    (∀ (url : List Char) (s : St), s.client = false →
      get_spreadsheet url s = ((none, "Not authenticated"), s)) := by
  constructor
  · intro wsIdx s hf hg
    rw [get_worksheet_data_noFault hf hg]
    rfl
  · intro url s hc
    simp [get_spreadsheet, getSpreadsheetBody, runCatch_eq, Act.bind_apply, isAuthA, hc,
      Act.pure_apply]

/-- Witness for C6: an empty worksheet read and an unauthenticated open (the
latter with a pending network fault that is never reached). -/
theorem C6_empty_worksheet_and_not_authenticated_witness :
    get_worksheet_data 0 ⟨true, [[]], [], []⟩ =
      ((none, "Worksheet is empty"), ⟨true, [[]], [], []⟩) ∧
    get_spreadsheet ("sheet1".toList) ⟨false, [], [], [some "network down"]⟩ =
      ((none, "Not authenticated"), ⟨false, [], [], [some "network down"]⟩) :=
  ⟨C6_empty_worksheet_and_not_authenticated.1 0 ⟨true, [[]], [], []⟩ rfl rfl,
    C6_empty_worksheet_and_not_authenticated.2 ("sheet1".toList)
      ⟨false, [], [], [some "network down"]⟩ rfl⟩

theorem getWorksheetA_run_out {wsIdx : Nat} {t t' : St} {r : Except String Nat}
    (h : (match t.grids.get? wsIdx with
          | some _ => (Except.ok wsIdx, t)
          | none => (Except.error ("Worksheet not found"), t)) = (r, t')) :
    t' = t ∧ (∀ a, r = Except.ok a → a = wsIdx) := by
  cases hg : t.grids.get? wsIdx <;> rw [hg] at h <;>
    injection h with h1 h2 <;> subst h2 <;> subst h1
  · exact ⟨rfl, fun a ha => by cases ha⟩
  · exact ⟨rfl, fun a ha => by injection ha with ha; exact ha.symm⟩

theorem getWorksheetA_out {wsIdx : Nat} {s s' : St} {r : Except String Nat}
    (h : getWorksheetA wsIdx s = (r, s')) :
    s'.grids = s.grids ∧ (∀ a, r = Except.ok a → a = wsIdx) := by
  unfold getWorksheetA prim at h
  rcases hf : s.faults with _ | ⟨_ | e, rest⟩ <;> rw [hf] at h
  · obtain ⟨ht, hok⟩ := getWorksheetA_run_out h
    rw [ht]
    exact ⟨rfl, hok⟩
  · obtain ⟨ht, hok⟩ := getWorksheetA_run_out h
    rw [ht]
    exact ⟨rfl, hok⟩
  · injection h with h1 h2
    subst h2
    subst h1
    exact ⟨rfl, fun a ha => by cases ha⟩

theorem rowValuesA_out {ws n : Nat} {s s' : St} {r : Except String (List String)}
    (h : rowValuesA ws n s = (r, s')) :
    s'.grids = s.grids ∧
      (∀ v, r = Except.ok v → v = rowValues (s.grids.getD ws []) n) := by
  unfold rowValuesA prim at h
  rcases hf : s.faults with _ | ⟨_ | e, rest⟩ <;> rw [hf] at h <;>
    injection h with h1 h2 <;> subst h2 <;> subst h1
  · exact ⟨rfl, fun v hv => by injection hv with hv; exact hv.symm⟩
  · exact ⟨rfl, fun v hv => by injection hv with hv; exact hv.symm⟩
  · exact ⟨rfl, fun v hv => by cases hv⟩

theorem runCatch_congr {α : Type} {x₁ x₂ : Act α} {handler : String → α}
    {s : St} (h : x₁ s = x₂ s) :
    runCatch x₁ handler s = runCatch x₂ handler s := by
  rw [runCatch_eq, runCatch_eq, h]

theorem Act.bind_congr_res {α β : Type} {x : Act α} {f₁ f₂ : α → Act β} {s : St}
    (h : ∀ a s', x s = (Except.ok a, s') → f₁ a s' = f₂ a s') :
    (x >>= f₁) s = (x >>= f₂) s := by
  rw [Act.bind_apply, Act.bind_apply]
  rcases hx : x s with ⟨r, s'⟩
  cases r with
  | error e => rfl
  | ok a => exact h a s' hx

theorem Act.bind_congr_fun {α β : Type} {x₁ x₂ : Act α} {f : α → Act β} {s : St}
    (h : x₁ s = x₂ s) : (x₁ >>= f) s = (x₂ >>= f) s := by
  rw [Act.bind_apply, Act.bind_apply, h]

theorem buildUpdateRowA_restrict {ws rowIdx : Nat} (headers : List String)
    (record : List (String × String)) :
    ∀ hs : List String, (∀ h ∈ hs, h ∈ headers) → ∀ s : St,
      buildUpdateRowA ws rowIdx headers (restrictRecord record headers) hs s =
        buildUpdateRowA ws rowIdx headers record hs s := by
  intro hs
  induction hs with
  | nil => intro _ s; rfl
  | cons h t ih =>
    intro hmem s
    have hh : h ∈ headers := hmem h (List.mem_cons_self h t)
    have ht : ∀ x ∈ t, x ∈ headers := fun x hx => hmem x (List.mem_cons_of_mem h hx)
    have hd := @dictLookup_restrict h headers record hh
    have hrec : buildUpdateRowA ws rowIdx headers (restrictRecord record headers) t =
        buildUpdateRowA ws rowIdx headers record t := funext (ih ht)
    simp only [buildUpdateRowA, hd, hrec]

/-- C9: `update_record` gives the same written row, the same remote effects
and the same returned status when the record is restricted to the
worksheet's header field names — keys outside the header have no effect; the
two runs are equal as whole operations, in every state (faulting or not). -/
theorem C9_update_record_ignores_nonheader_keys (wsIdx offset : Nat)
    (record : List (String × String)) (s : St) :
    update_record wsIdx offset
        (restrictRecord record (rowValues (s.grids.getD wsIdx []) 1)) s =
      update_record wsIdx offset record s := by
  unfold update_record update_row updateRowBody
  apply runCatch_congr
  apply Act.bind_congr_res
  intro ws s1 h1
  obtain ⟨hg1, hok1⟩ := getWorksheetA_out h1
  have hws : ws = wsIdx := hok1 ws rfl
  apply Act.bind_congr_res
  intro headers s2 h2
  obtain ⟨hg2, hok2⟩ := rowValuesA_out h2
  have hH : headers = rowValues (s.grids.getD wsIdx []) 1 := by
    rw [hok2 headers rfl, hg1, hws]
  apply Act.bind_congr_fun
  rw [← hH]
  exact buildUpdateRowA_restrict headers record headers (fun x hx => hx) s2

theorem runCatch_fst_cases {α : Type} (x : Act α) (handler : String → α) (s : St) :
    (∃ a s', x s = (Except.ok a, s') ∧ (runCatch x handler s).1 = a) ∨
    (∃ e, (runCatch x handler s).1 = handler e) := by
  rw [runCatch_eq]
  rcases hx : x s with ⟨r, s'⟩
  cases r with
  | error e => exact Or.inr ⟨e, rfl⟩
  | ok a => exact Or.inl ⟨a, s', rfl, rfl⟩

theorem authBody_ok {payload : List Char} {s s' : St} {r : Bool × String}
    (h : authBody payload s = (Except.ok r, s')) :
    r = (true, "Authentication successful") := by
  unfold authBody at h
  obtain ⟨u, s1, h1, h⟩ := Act.bind_ok h
  rw [Act.pure_apply] at h
  injection h with h _
  injection h with h
  exact h.symm

theorem getSpreadsheetBody_ok {url : List Char} {s s' : St}
    {r : Option (List Char) × String}
    (h : getSpreadsheetBody url s = (Except.ok r, s')) :
    r = (none, "Not authenticated") ∨ ∃ hd, r = (some hd, "Success") := by
  unfold getSpreadsheetBody at h
  obtain ⟨auth, s1, h1, h⟩ := Act.bind_ok h
  cases auth
  · rw [if_neg (by simp)] at h
    rw [Act.pure_apply] at h
    injection h with h _
    injection h with h
    exact Or.inl h.symm
  · rw [if_pos rfl] at h
    obtain ⟨hd, s2, h2, h⟩ := Act.bind_ok h
    rw [Act.pure_apply] at h
    injection h with h _
    injection h with h
    exact Or.inr ⟨hd, h.symm⟩

theorem getWorksheetDataBody_ok {wsIdx : Nat} {s s' : St}
    {r : Option Table × String}
    (h : getWorksheetDataBody wsIdx s = (Except.ok r, s')) :
    r = (none, "Worksheet is empty") ∨ ∃ t, r = (some t, "Success") := by
  unfold getWorksheetDataBody at h
  obtain ⟨ws, s1, h1, h⟩ := Act.bind_ok h
  obtain ⟨data, s2, h2, h⟩ := Act.bind_ok h
  cases data with
  | nil =>
    injection h with h _
    injection h with h
    exact Or.inl h.symm
  | cons headers rows =>
    injection h with h _
    injection h with h
    exact Or.inr ⟨_, h.symm⟩

theorem updateRowBody_ok {wsIdx rowIdx : Nat} {record : List (String × String)}
    {s s' : St} {r : Bool × String}
    (h : updateRowBody wsIdx rowIdx record s = (Except.ok r, s')) :
    r = (true, "Row updated successfully") := by
  unfold updateRowBody at h
  obtain ⟨ws, s1, h1, h⟩ := Act.bind_ok h
  obtain ⟨headers, s2, h2, h⟩ := Act.bind_ok h
  obtain ⟨rowData, s3, h3, h⟩ := Act.bind_ok h
  obtain ⟨u, s4, h4, h⟩ := Act.bind_ok h
  rw [Act.pure_apply] at h
  injection h with h _
  injection h with h
  exact h.symm

theorem addRowBody_ok {wsIdx : Nat} {record : List (String × String)}
    {s s' : St} {r : Bool × String}
    (h : addRowBody wsIdx record s = (Except.ok r, s')) :
    r = (true, "Row added successfully") := by
  unfold addRowBody at h
  obtain ⟨ws, s1, h1, h⟩ := Act.bind_ok h
  obtain ⟨headers, s2, h2, h⟩ := Act.bind_ok h
  obtain ⟨u, s3, h3, h⟩ := Act.bind_ok h
  rw [Act.pure_apply] at h
  injection h with h _
  injection h with h
  exact h.symm

theorem deleteRowBody_ok {wsIdx rowIdx : Nat} {s s' : St} {r : Bool × String}
    (h : deleteRowBody wsIdx rowIdx s = (Except.ok r, s')) :
    r = (true, "Row deleted successfully") := by
  unfold deleteRowBody at h
  obtain ⟨ws, s1, h1, h⟩ := Act.bind_ok h
  obtain ⟨u, s2, h2, h⟩ := Act.bind_ok h
  rw [Act.pure_apply] at h
  injection h with h _
  injection h with h
  exact h.symm

/-- C7: for every session state — including every schedule of faults that
the underlying remote store may raise at any primitive call (network,
permission, invalid worksheet index, malformed payload) — each adapter
operation catches the fault at its own boundary and returns one of its
`(false-or-none, message)` outcome pairs; being total functions into the
pair type, the operations never propagate a raised exception to the
caller. -/
theorem C7_adapter_catches_all_faults (payload url : List Char)
    (wsIdx offset : Nat) (record : List (String × String)) (s : St) :
    ((authenticate_with_key payload s).1 = (true, "Authentication successful") ∨
      ∃ e, (authenticate_with_key payload s).1 =
        (false, "Authentication failed: " ++ e)) ∧
    ((get_spreadsheet url s).1 = (none, "Not authenticated") ∨
      (∃ h, (get_spreadsheet url s).1 = (some h, "Success")) ∨
      ∃ e, (get_spreadsheet url s).1 =
        (none, "Error accessing spreadsheet: " ++ e)) ∧
    ((get_worksheet_data wsIdx s).1 = (none, "Worksheet is empty") ∨
      (∃ t, (get_worksheet_data wsIdx s).1 = (some t, "Success")) ∨
      ∃ e, (get_worksheet_data wsIdx s).1 =
        (none, "Error getting worksheet data: " ++ e)) ∧
    ((add_row wsIdx record s).1 = (true, "Row added successfully") ∨
      ∃ e, (add_row wsIdx record s).1 = (false, "Error adding row: " ++ e)) ∧
    ((update_record wsIdx offset record s).1 = (true, "Row updated successfully") ∨
      ∃ e, (update_record wsIdx offset record s).1 =
        (false, "Error updating row: " ++ e)) ∧
    ((delete_record wsIdx offset s).1 = (true, "Row deleted successfully") ∨
      ∃ e, (delete_record wsIdx offset s).1 =
        (false, "Error deleting row: " ++ e)) := by
  refine ⟨?_, ?_, ?_, ?_, ?_, ?_⟩
  · unfold authenticate_with_key
    rcases runCatch_fst_cases (authBody payload)
        (fun e => (false, "Authentication failed: " ++ e)) s with
      ⟨a, s', hx, hfst⟩ | ⟨e, hfst⟩
    · left
      rw [hfst]
      exact authBody_ok hx
    · right
      exact ⟨e, hfst⟩
  · unfold get_spreadsheet
    rcases runCatch_fst_cases (getSpreadsheetBody url)
        (fun e => (none, "Error accessing spreadsheet: " ++ e)) s with
      ⟨a, s', hx, hfst⟩ | ⟨e, hfst⟩
    · rcases getSpreadsheetBody_ok hx with ha | ⟨hd, ha⟩
      · left
        rw [hfst, ha]
      · right
        left
        exact ⟨hd, by rw [hfst, ha]⟩
    · right
      right
      exact ⟨e, hfst⟩
  · unfold get_worksheet_data
    rcases runCatch_fst_cases (getWorksheetDataBody wsIdx)
        (fun e => (none, "Error getting worksheet data: " ++ e)) s with
      ⟨a, s', hx, hfst⟩ | ⟨e, hfst⟩
    · rcases getWorksheetDataBody_ok hx with ha | ⟨t, ha⟩
      · left
        rw [hfst, ha]
      · right
        left
        exact ⟨t, by rw [hfst, ha]⟩
    · right
      right
      exact ⟨e, hfst⟩
  · unfold add_row
    rcases runCatch_fst_cases (addRowBody wsIdx record)
        (fun e => (false, "Error adding row: " ++ e)) s with
      ⟨a, s', hx, hfst⟩ | ⟨e, hfst⟩
    · left
      rw [hfst]
      exact addRowBody_ok hx
    · right
      exact ⟨e, hfst⟩
  · unfold update_record update_row
    rcases runCatch_fst_cases (updateRowBody wsIdx (offset + 1) record)
        (fun e => (false, "Error updating row: " ++ e)) s with
      ⟨a, s', hx, hfst⟩ | ⟨e, hfst⟩
    · left
      rw [hfst]
      exact updateRowBody_ok hx
    · right
      exact ⟨e, hfst⟩
  · unfold delete_record delete_row
    rcases runCatch_fst_cases (deleteRowBody wsIdx (offset + 1))
        (fun e => (false, "Error deleting row: " ++ e)) s with
      ⟨a, s', hx, hfst⟩ | ⟨e, hfst⟩
    · left
      rw [hfst]
      exact deleteRowBody_ok hx
    · right
      exact ⟨e, hfst⟩

theorem countMarkerF_fuel : ∀ (fuel fuel' : Nat) (l : List Char),
    l.length ≤ fuel → l.length ≤ fuel' →
    countMarkerF fuel l = countMarkerF fuel' l := by
  intro fuel
  induction fuel with
  | zero =>
    intro fuel' l hl _
    have hnil : l = [] := List.eq_nil_of_length_eq_zero (Nat.le_zero.mp hl)
    subst hnil
    cases fuel' <;> rfl
  | succ n ih =>
    intro fuel' l hl hl'
    cases l with
    | nil => cases fuel' <;> rfl
    | cons c rest =>
      cases fuel' with
      | zero => simp only [List.length_cons] at hl'; omega
      | succ n' =>
        show (if marker.isPrefixOf (c :: rest) = true then
            countMarkerF n (rest.drop (marker.length - 1)) + 1
          else countMarkerF n rest) =
          (if marker.isPrefixOf (c :: rest) = true then
            countMarkerF n' (rest.drop (marker.length - 1)) + 1
          else countMarkerF n' rest)
        simp only [List.length_cons] at hl hl'
        by_cases hp : marker.isPrefixOf (c :: rest) = true
        · rw [if_pos hp, if_pos hp, ih n' _
            (by simp only [List.length_drop]; omega)
            (by simp only [List.length_drop]; omega)]
        · rw [if_neg hp, if_neg hp, ih n' rest (by omega) (by omega)]

theorem splitMarkerF_count_zero : ∀ (fuel : Nat) (l acc : List Char),
    l.length ≤ fuel → countMarker l = 0 →
    splitMarkerF fuel l acc = [acc.reverse ++ l] := by
  intro fuel
  induction fuel with
  | zero =>
    intro l acc hl _
    have hnil : l = [] := List.eq_nil_of_length_eq_zero (Nat.le_zero.mp hl)
    subst hnil
    simp [splitMarkerF]
  | succ n ih =>
    intro l acc hl h0
    cases l with
    | nil => simp [splitMarkerF]
    | cons c rest =>
      have hunf : countMarker (c :: rest) =
          if marker.isPrefixOf (c :: rest) = true then
            countMarkerF rest.length (rest.drop (marker.length - 1)) + 1
          else countMarkerF rest.length rest := rfl
      show (if marker.isPrefixOf (c :: rest) = true then
          acc.reverse :: splitMarkerF n (rest.drop (marker.length - 1)) []
        else splitMarkerF n rest (c :: acc)) = [acc.reverse ++ (c :: rest)]
      by_cases hp : marker.isPrefixOf (c :: rest) = true
      · rw [hunf, if_pos hp] at h0
        omega
      · rw [hunf, if_neg hp] at h0
        rw [if_neg hp, ih rest (c :: acc)
          (by simp only [List.length_cons] at hl; omega) h0]
        simp

theorem splitMarkerF_count_one : ∀ (fuel : Nat) (l acc : List Char),
    l.length ≤ fuel → countMarker l = 1 →
    (splitMarkerF fuel l acc).getD 1 [] = (dropAfterMarker l).getD [] := by
  intro fuel
  induction fuel with
  | zero =>
    intro l acc hl h1
    have hnil : l = [] := List.eq_nil_of_length_eq_zero (Nat.le_zero.mp hl)
    subst hnil
    simp [countMarker, countMarkerF] at h1
  | succ n ih =>
    intro l acc hl h1
    cases l with
    | nil => simp [countMarker, countMarkerF] at h1
    | cons c rest =>
      have hunf : countMarker (c :: rest) =
          if marker.isPrefixOf (c :: rest) = true then
            countMarkerF rest.length (rest.drop (marker.length - 1)) + 1
          else countMarkerF rest.length rest := rfl
      have hsplit : splitMarkerF (n + 1) (c :: rest) acc =
          if marker.isPrefixOf (c :: rest) = true then
            acc.reverse :: splitMarkerF n (rest.drop (marker.length - 1)) []
          else splitMarkerF n rest (c :: acc) := rfl
      have hdrop : dropAfterMarker (c :: rest) =
          if marker.isPrefixOf (c :: rest) = true then
            some (rest.drop (marker.length - 1))
          else dropAfterMarker rest := rfl
      simp only [List.length_cons] at hl
      by_cases hp : marker.isPrefixOf (c :: rest) = true
      · rw [hsplit, if_pos hp, hdrop, if_pos hp]
        rw [hunf, if_pos hp] at h1
        have hff := countMarkerF_fuel rest.length
          (rest.drop (marker.length - 1)).length (rest.drop (marker.length - 1))
          (by simp only [List.length_drop]; omega) (Nat.le_refl _)
        have h0 : countMarker (rest.drop (marker.length - 1)) = 0 := by
          unfold countMarker
          omega
        rw [splitMarkerF_count_zero n _ []
          (by simp only [List.length_drop]; omega) h0]
        simp
      · rw [hsplit, if_neg hp, hdrop, if_neg hp]
        rw [hunf, if_neg hp] at h1
        exact ih rest (c :: acc) (by omega) h1

theorem dropAfterMarker_isSome_of_count {l : List Char}
    (h : countMarker l ≠ 0) : (dropAfterMarker l).isSome = true := by
  induction l with
  | nil => simp [countMarker, countMarkerF] at h
  | cons c rest ih =>
    have hunf : countMarker (c :: rest) =
        if marker.isPrefixOf (c :: rest) = true then
          countMarkerF rest.length (rest.drop (marker.length - 1)) + 1
        else countMarkerF rest.length rest := rfl
    have hdrop : dropAfterMarker (c :: rest) =
        if marker.isPrefixOf (c :: rest) = true then
          some (rest.drop (marker.length - 1))
        else dropAfterMarker rest := rfl
    by_cases hp : marker.isPrefixOf (c :: rest) = true
    · rw [hdrop, if_pos hp]
      rfl
    · rw [hdrop, if_neg hp]
      apply ih
      rw [hunf, if_neg hp] at h
      exact h

theorem splitSlashAux_head : ∀ (l acc : List Char),
    (splitSlashAux l acc).getD 0 [] =
      acc.reverse ++ l.takeWhile (fun c => c ≠ '/') := by
  intro l
  induction l with
  | nil => intro acc; simp [splitSlashAux]
  | cons c rest ih =>
    intro acc
    by_cases hc : c = '/'
    · subst hc
      simp [splitSlashAux, List.takeWhile_cons]
    · simp only [splitSlashAux, if_neg hc, ih (c :: acc), List.takeWhile_cons]
      simp [hc]

/-- C5 counterexample: in the input `spreadsheets/d/spreadsheets/d/`, which
contains the marker twice, the code's
`url.split("spreadsheets/d/")[1].split("/")[0]` yields the empty string (the
text between the first two marker occurrences), while the claim's "substring
after the first occurrence of the marker and before the next `/`" is
`spreadsheets`. -/
theorem C5_extract_id_counterexample :
    extract_spreadsheet_id ("spreadsheets/d/spreadsheets/d/".toList) = [] ∧
    claimExtractId ("spreadsheets/d/spreadsheets/d/".toList) =
      ("spreadsheets".toList) ∧
    extract_spreadsheet_id ("spreadsheets/d/spreadsheets/d/".toList) ≠
      claimExtractId ("spreadsheets/d/spreadsheets/d/".toList) := by
  refine ⟨by decide, by decide, by decide⟩

/-- C5 (amended): for every input string in which the marker
`spreadsheets/d/` occurs exactly once, `open_spreadsheet` extracts as the
spreadsheet identifier exactly the substring after the marker and before the
next `/` (the whole remainder when no `/` follows); for every input not
containing the marker, the whole input is used directly as the identifier.
(With several marker occurrences the code instead takes the text between the
first two occurrences, truncated at its first `/`.) -/
theorem C5_extract_id_amended (url : List Char) :
    (countMarker url = 1 →
      extract_spreadsheet_id url = claimExtractId url) ∧
    ((dropAfterMarker url).isSome = false →
      extract_spreadsheet_id url = url) := by
  constructor
  · intro h1
    have hocc := @dropAfterMarker_isSome_of_count url (by omega)
    have h3 := splitMarkerF_count_one url.length url [] (Nat.le_refl _) h1
    unfold extract_spreadsheet_id claimExtractId splitMarker
    rw [if_pos hocc, h3]
    cases hdrop : dropAfterMarker url with
    | none =>
      rw [hdrop] at hocc
      simp at hocc
    | some suffix =>
      simp only [Option.getD_some]
      rw [splitSlashAux_head suffix []]
      simp
  · intro h2
    unfold extract_spreadsheet_id
    rw [if_neg (by simp [h2])]

/-- Witness for the amended C5 theorem: the claim's URL (one marker
occurrence) extracts exactly `XYZ123`, and a bare identifier without the
marker is used whole. -/
theorem C5_extract_id_amended_witness :
    extract_spreadsheet_id ("https://host/spreadsheets/d/XYZ123/edit?gid=1".toList) =
      claimExtractId ("https://host/spreadsheets/d/XYZ123/edit?gid=1".toList) ∧
    extract_spreadsheet_id ("https://host/spreadsheets/d/XYZ123/edit?gid=1".toList) =
      ("XYZ123".toList) ∧
    extract_spreadsheet_id ("rawid42".toList) = ("rawid42".toList) :=
  ⟨(C5_extract_id_amended ("https://host/spreadsheets/d/XYZ123/edit?gid=1".toList)).1
      (by decide),
    by decide,
    (C5_extract_id_amended ("rawid42".toList)).2 (by decide)⟩
